import Mathlib

/-!
Verification of the cistern sensor-state interpreter and notification engine
(`BFK-7_Projektaufgabe`, `Teil1/`.../main.py` and `Teil2/.../main.py`; the two
variants share the decision logic verbatim, `Teil2` adds the database/aggregate
report, so the embedding below follows `Teil2`).

Python strings of sensor bits are embedded as Lean `String`; Python function
results that may be `None` or may raise an exception are embedded as the
three-valued `PyStr`.  The configuration file `resources/config.json` is not
part of the sources; its shape (six water-level names, six sensor names, a
list of levels that trigger the aggregate report) is modelled from the spec.
-/

/-- Result of a Python function returning a string, `None`, or raising. -/
inductive PyStr where
  | noneVal
  | strVal (s : String)
  | exn
deriving DecidableEq, Repr

/-- Modelled from the spec: the configuration entries the core logic reads
(`WATER_LEVEL_NAMES`, `SENSOR_NAMES`, `NOTIFICATION_WHEN_RISEN_ABOVE`);
`config.json` itself is not under the sources.  The spec fixes both name
lists to exactly six entries. -/
structure Config where
  WATER_LEVEL_NAMES : List String
  SENSOR_NAMES : List String
  NOTIFICATION_WHEN_RISEN_ABOVE : List String
deriving DecidableEq, Repr

/-- `x in "01"` for a single character. -/
def isBit (c : Char) : Bool := c = '0' || c = '1'

/-- The common guard `len(bit_value) != 6 or not all(x in "01" for x in bit_value)`
(negated): the string is exactly six binary digits. -/
def sixBits (s : String) : Bool := s.length == 6 && s.data.all isBit

/-- The counting loop of `App.get_water_level`: iterate over `bit_value[::-1]`
and count the leading `"1"` characters (the trailing run of ones). -/
def trailingOnes (s : String) : Nat :=
  ((s.data.reverse).takeWhile (fun c => c = '1')).length

/-- `App.get_water_level` (main.py): `None` on a malformed string, otherwise
`self.config["WATER_LEVEL_NAMES"][::-1][index]`, which raises `IndexError`
when `index` is out of range of the reversed list. -/
def get_water_level (cfg : Config) (bit_value : String) : PyStr :=
  if !(sixBits bit_value) then .noneVal
  else
    match cfg.WATER_LEVEL_NAMES.reverse[trailingOnes bit_value]? with
    | some n => .strVal n
    | none => .exn

/-- `App.validate_bit_value` (main.py): six binary digits, and if `"1"` occurs
then no `"0"` occurs in `bit_value[bit_value.index("1")::]`.  The slice from
the first `"1"` is `dropWhile (· ≠ '1')`. -/
def validate_bit_value (bit_value : String) : Bool :=
  if !(sixBits bit_value) then false
  else if bit_value.data.contains '1' &&
          ((bit_value.data.dropWhile (fun c => ¬(c = '1'))).contains '0') then false
  else true

/-- Python `str.strip("0")`: remove `'0'` characters from both ends. -/
def strip0 (l : List Char) : List Char :=
  ((l.dropWhile (fun c => c = '0')).reverse.dropWhile (fun c => c = '0')).reverse

/-- Python `bit_value.rindex("0")`: the largest index holding `'0'`, or `none`
when `'0'` does not occur (where Python raises `ValueError`). -/
def rindex0 (l : List Char) : Option Nat :=
  match l with
  | [] => none
  | x :: xs =>
    match rindex0 xs with
    | some i => some (i + 1)
    | none => if x = '0' then some 0 else none

/-- `App.get_failing_sensor_name` (main.py): `None` when the both-ends
`strip("0")` of the input contains no `'0'`; otherwise
`self.config["SENSOR_NAMES"][bit_value.rindex("0")]` (raising on an
out-of-range index). -/
def get_failing_sensor_name (cfg : Config) (bit_value : String) : PyStr :=
  if !((strip0 bit_value.data).contains '0') then .noneVal
  else
    match rindex0 bit_value.data with
    | none => .exn
    | some i =>
      match cfg.SENSOR_NAMES[i]? with
      | some n => .strVal n
      | none => .exn

/-- Python `int(s, 2)` on a six-bit binary string. -/
def bin2nat (s : String) : Nat :=
  s.data.foldl (fun acc c => 2 * acc + (if c = '1' then 1 else 0)) 0

/-- The count `len([True for old_bit, new_bit in zip(self.active_value, user_input)
if old_bit != new_bit])` from `App.mainloop`; for equal-length strings this is
the Hamming distance. -/
def changedBits (active user : String) : Nat :=
  ((active.data.zip user.data).filter (fun p => ¬(p.1 = p.2))).length

/-- The `one_bit_changed` flag of `App.mainloop`. -/
def one_bit_changed (active user : String) : Bool :=
  decide (changedBits active user ≤ 1)

/-- The acceptance condition of `App.mainloop` line 143:
`self.validate_bit_value(user_input) and (one_bit_changed or (one_bit_changed
and int(user_input, 2) >= int(self.active_value, 2)))`. -/
def may_transition (active user : String) : Bool :=
  validate_bit_value user &&
    (one_bit_changed active user ||
      (one_bit_changed active user && decide (bin2nat user ≥ bin2nat active)))

/-- The engine state of `App`: `active_value`, the stored `water_level`
(`none` embeds Python `None`), and `triggered_water_areas`. -/
structure EngineState where
  active_value : String
  water_level : Option String
  triggered_water_areas : List String
deriving DecidableEq, Repr

/-- The decision one loop iteration communicates to the collaborators:
an acceptance (with the freshly resolved level, whether the per-level email
was sent, and whether the aggregate database report ran), a sensor-fault
notification (carrying the possibly-`None` sensor name), or a rejection. -/
inductive Decision where
  | accepted (new_level : Option String) (notify : Bool) (aggregate_report : Bool)
  | sensorFault (sensor : PyStr)
  | rejected
deriving DecidableEq, Repr

/-- One iteration of `App.mainloop` (Teil2, lines 138-178) on input
`user_input`, as a pure state transformer; `none` embeds a Python crash
(an uncaught `IndexError`).  In the accepted branch `self.active_value` is
assigned `user_input` (line 144) before the numeric rise test
`int(user_input, 2) >= int(self.active_value, 2)` (line 149) is evaluated,
which the embedding mirrors by comparing against `active'`. -/
def evaluate (cfg : Config) (s : EngineState) (user_input : String) :
    Option (Decision × EngineState) :=
  if may_transition s.active_value user_input then
    let active' := user_input
    match get_water_level cfg active' with
    | .exn => none
    | .noneVal => none
    | .strVal wl =>
      let triggered1 :=
        if bin2nat user_input ≥ bin2nat active' then [] else s.triggered_water_areas
      let aggregate :=
        decide (bin2nat user_input ≥ bin2nat active') &&
          cfg.NOTIFICATION_WHEN_RISEN_ABOVE.contains wl
      let notify := !(triggered1.contains wl)
      let triggered2 :=
        if triggered1.contains wl then triggered1 else triggered1 ++ [wl]
      some (.accepted (some wl) notify aggregate,
            ⟨active', some wl, triggered2⟩)
  else if validate_bit_value user_input then
    some (.rejected, s)
  else
    match get_water_level cfg user_input with
    | .exn => none
    | .noneVal => some (.rejected, s)
    | .strVal _ =>
      match get_failing_sensor_name cfg user_input with
      | .exn => none
      | r => some (.sensorFault r, s)

/-- `App.__init__` (Teil2, lines 23-26): the startup engine state from the
default reading. -/
def appInit (cfg : Config) (default : String) : Option EngineState :=
  match get_water_level cfg default with
  | .exn => none
  | .noneVal => some ⟨default, none, []⟩
  | .strVal n => some ⟨default, some n, []⟩

/-- The `reset` command of `App.handle_commands` (Teil2, lines 115-119):
clear `triggered_water_areas`, restore the default reading, recompute the
level. -/
def appReset (cfg : Config) (default : String) (_s : EngineState) :
    Option EngineState :=
  match get_water_level cfg default with
  | .exn => none
  | .noneVal => some ⟨default, none, []⟩
  | .strVal n => some ⟨default, some n, []⟩

/-- The engine states reachable from startup with a given configuration and
default reading, under repeated `evaluate` calls and `reset` commands. -/
inductive Reachable (cfg : Config) (default : String) : EngineState → Prop where
  | startup : ∀ s, appInit cfg default = some s → Reachable cfg default s
  | eval : ∀ s p d s', Reachable cfg default s →
      evaluate cfg s p = some (d, s') → Reachable cfg default s'
  | reset : ∀ s s', Reachable cfg default s →
      appReset cfg default s = some s' → Reachable cfg default s'

/-- A concrete six-level configuration used for concrete evaluations. -/
def cfg0 : Config :=
  { WATER_LEVEL_NAMES := ["PB5", "PB4", "PB3", "PB2", "PB1", "PB0"]
    SENSOR_NAMES := ["S0", "S1", "S2", "S3", "S4", "S5"]
    NOTIFICATION_WHEN_RISEN_ABOVE := ["PB4"] }

/-! Helper lemmas about the embedded functions. -/

theorem validate_sixBits {v : String} (h : validate_bit_value v = true) :
    sixBits v = true := by
  unfold validate_bit_value at h
  by_cases hs : sixBits v = true
  · exact hs
  · simp [hs] at h

theorem sixBits_data_length {v : String} (h : sixBits v = true) :
    v.data.length = 6 := by
  unfold sixBits at h
  have h1 := (Bool.and_eq_true _ _).mp h
  have hl : v.length = 6 := by
    have := h1.1
    simpa using this
  exact hl

theorem trailingOnes_le {s : String} : trailingOnes s ≤ s.data.length := by
  unfold trailingOnes
  calc ((s.data.reverse).takeWhile (fun c => c = '1')).length
      ≤ s.data.reverse.length := (List.takeWhile_prefix _).sublist.length_le
    _ = s.data.length := List.length_reverse _

theorem eq_full_of_run6 {s : String} (h6 : sixBits s = true)
    (hrun : trailingOnes s = 6) : s = ("111111" : String) := by
  have hlen : s.data.length = 6 := sixBits_data_length h6
  have hrl : s.data.reverse.length = 6 := by rw [List.length_reverse]; exact hlen
  have htw : (s.data.reverse.takeWhile (fun c => c = '1')) = s.data.reverse := by
    apply (List.takeWhile_prefix _).sublist.eq_of_length
    unfold trailingOnes at hrun
    rw [hrun, hrl]
  have hall : ∀ c ∈ s.data, c = '1' := by
    intro c hc
    have hcr : c ∈ s.data.reverse := List.mem_reverse.mpr hc
    rw [← htw] at hcr
    have := List.mem_takeWhile_imp hcr
    simpa using this
  have hdata : s.data = List.replicate 6 '1' := by
    apply List.eq_replicate_iff.mpr
    exact ⟨hlen, hall⟩
  have : s.data = ("111111" : String).data := by rw [hdata]; rfl
  cases s
  cases this
  rfl

theorem validate_of_run6 {s : String} (h6 : sixBits s = true)
    (hrun : trailingOnes s = 6) : validate_bit_value s = true := by
  rw [eq_full_of_run6 h6 hrun]
  decide

theorem get_water_level_noneVal_iff (cfg : Config) (v : String) :
    get_water_level cfg v = PyStr.noneVal ↔ sixBits v = false := by
  unfold get_water_level
  by_cases hs : sixBits v = true
  · simp only [hs]
    cases cfg.WATER_LEVEL_NAMES.reverse[trailingOnes v]? <;> simp
  · have : sixBits v = false := by simpa using hs
    simp [this]

theorem get_water_level_strVal_sixBits {cfg : Config} {v : String} {n : String}
    (h : get_water_level cfg v = PyStr.strVal n) : sixBits v = true := by
  unfold get_water_level at h
  by_cases hs : sixBits v = true
  · exact hs
  · have : sixBits v = false := by simpa using hs
    simp [this] at h

theorem get_water_level_not_exn {cfg : Config} {v : String}
    (hwl : cfg.WATER_LEVEL_NAMES.length = 6)
    (hinv : validate_bit_value v = false) :
    get_water_level cfg v ≠ PyStr.exn := by
  unfold get_water_level
  by_cases hs : sixBits v = true
  · simp only [hs, Bool.not_true]
    cases hg : cfg.WATER_LEVEL_NAMES.reverse[trailingOnes v]? with
    | some n => simp
    | none =>
      exfalso
      have hle : cfg.WATER_LEVEL_NAMES.reverse.length ≤ trailingOnes v :=
        List.getElem?_eq_none_iff.mp hg
      rw [List.length_reverse, hwl] at hle
      have hge : trailingOnes v ≤ 6 := by
        have := @trailingOnes_le v
        rw [sixBits_data_length hs] at this
        exact this
      have hrun : trailingOnes v = 6 := Nat.le_antisymm hge hle
      rw [validate_of_run6 hs hrun] at hinv
      exact Bool.true_eq_false.mp hinv
  · have : sixBits v = false := by simpa using hs
    simp [this]

theorem rindex0_eq_none {l : List Char} (h : '0' ∉ l) : rindex0 l = none := by
  induction l with
  | nil => rfl
  | cons a as ih =>
    have ha : ¬ a = '0' := fun hh => h (by rw [hh]; exact List.mem_cons_self _ _)
    have has : '0' ∉ as := fun hh => h (List.mem_cons_of_mem _ hh)
    unfold rindex0
    rw [ih has]
    simp [ha]

theorem rindex0_spec : ∀ (l : List Char), '0' ∈ l →
    ∃ i, rindex0 l = some i ∧ i < l.length ∧ l[i]? = some '0' ∧
      ∀ j, i < j → l[j]? ≠ some '0' := by
  intro l
  induction l with
  | nil => intro h; cases h
  | cons x xs ih =>
    intro hmem
    by_cases hx : '0' ∈ xs
    · obtain ⟨i, hri, hlt, hget, hlast⟩ := ih hx
      refine ⟨i + 1, ?_, ?_, ?_, ?_⟩
      · unfold rindex0; rw [hri]
      · simpa [Nat.succ_lt_succ_iff] using hlt
      · simpa using hget
      · intro j hj h0
        cases j with
        | zero => cases hj
        | succ j' =>
          have : i < j' := Nat.lt_of_succ_lt_succ hj
          exact hlast j' this (by simpa using h0)
    · have hx0 : x = '0' := by
        cases List.mem_cons.mp hmem with
        | inl h => exact h.symm
        | inr h => exact absurd h hx
      have hnone : rindex0 xs = none := rindex0_eq_none hx
      refine ⟨0, ?_, ?_, ?_, ?_⟩
      · unfold rindex0; rw [hnone]; simp [hx0]
      · simp
      · simp [hx0]
      · intro j hj h0
        cases j with
        | zero => cases hj
        | succ j' =>
          have : '0' ∈ xs :=
            List.mem_iff_getElem?.mpr ⟨j', by simpa using h0⟩
          exact hx this

theorem mem_of_mem_strip0 {x : Char} {l : List Char} (h : x ∈ strip0 l) :
    x ∈ l := by
  unfold strip0 at h
  have h1 := List.mem_reverse.mp h
  have h2 := (List.dropWhile_sublist _).mem h1
  have h3 := List.mem_reverse.mp h2
  exact (List.dropWhile_sublist _).mem h3

theorem contains_iff_mem {l : List Char} {x : Char} :
    l.contains x = true ↔ x ∈ l := by
  simp [List.contains, List.elem_iff]

theorem changedBits_self (c : String) : changedBits c c = 0 := by
  unfold changedBits
  generalize c.data = l
  induction l with
  | nil => rfl
  | cons a l ih => simpa using ih

/-- C3: the acceptance test of the main loop is equivalent to requiring that
the candidate is a valid thermometer code and that at most one bit position
differs from the six-character current reading (the Hamming distance, counted
by `changedBits`); the numeric comparison in the dead disjunct never affects
acceptance, a valid reading may always transition to itself, and any jump of
more than one bit is refused regardless of validity. -/
theorem may_transition_iff_valid_and_close (current candidate : String)
    (h : current.length = 6) :
    (may_transition current candidate = true ↔
      (validate_bit_value candidate = true ∧
        changedBits current candidate ≤ 1)) ∧
    (validate_bit_value current = true →
      may_transition current current = true) ∧
    (1 < changedBits current candidate →
      may_transition current candidate = false) := by
  refine ⟨?_, ?_, ?_⟩
  · unfold may_transition one_bit_changed
    by_cases hb : changedBits current candidate ≤ 1
    · simp [hb]
    · simp [hb]
  · intro hv
    unfold may_transition one_bit_changed
    simp [hv, changedBits_self]
  · intro h1
    have hb : ¬ changedBits current candidate ≤ 1 := by omega
    unfold may_transition one_bit_changed
    simp [hb]

/-- Witness for C3 at the six-character current reading `"000111"` and the
one-step candidate `"001111"`. -/
theorem may_transition_iff_valid_and_close_witness :
    ("000111" : String).length = 6 ∧
    ((may_transition ("000111") ("001111") = true ↔
       (validate_bit_value ("001111") = true ∧
         changedBits ("000111") ("001111") ≤ 1)) ∧
     (validate_bit_value ("000111") = true →
       may_transition ("000111") ("000111") = true) ∧
     (1 < changedBits ("000111") ("001111") →
       may_transition ("000111") ("001111") = false)) :=
  ⟨rfl, may_transition_iff_valid_and_close ("000111") ("001111") rfl⟩

/-- C4 counterexample: with the six-entry `WATER_LEVEL_NAMES` the spec fixes,
the all-ones reading `"111111"` (trailing run 6) does not resolve to a level
name — the reversed-list access is out of range and the embedded
`get_water_level` yields the `IndexError` marker, refuting the claim that
`resolve` returns a name for all 64 six-bit strings. -/
theorem resolve_full_pattern_out_of_range :
    cfg0.WATER_LEVEL_NAMES.length = 6 ∧ sixBits ("111111") = true ∧
    trailingOnes ("111111") = 6 ∧
    get_water_level cfg0 ("111111") = PyStr.exn :=
  ⟨rfl, by decide, by decide, rfl⟩

/-- C4 as amended: for every six-bit string whose trailing run of ones is at
most 5, `resolve` returns `WATER_LEVEL_NAMES` read in reverse order at index
`run` without any out-of-range access, and the result depends only on that
trailing run; only the all-ones string (run 6) indexes out of range of the
six-entry table. -/
theorem resolve_total_below_full (cfg : Config) (s t : String)
    (hwf : cfg.WATER_LEVEL_NAMES.length = 6)
    (h6 : sixBits s = true) (hrun : trailingOnes s ≤ 5) :
    (∃ n, get_water_level cfg s = PyStr.strVal n ∧
      cfg.WATER_LEVEL_NAMES.reverse[trailingOnes s]? = some n) ∧
    (sixBits t = true → trailingOnes t = trailingOnes s →
      get_water_level cfg t = get_water_level cfg s) := by
  constructor
  · have hlt : trailingOnes s < cfg.WATER_LEVEL_NAMES.reverse.length := by
      rw [List.length_reverse, hwf]; omega
    unfold get_water_level
    simp only [h6, Bool.not_true, Bool.false_eq_true, if_false]
    cases hg : cfg.WATER_LEVEL_NAMES.reverse[trailingOnes s]? with
    | none =>
      exact absurd (List.getElem?_eq_none_iff.mp hg) (Nat.not_le.mpr hlt)
    | some n => exact ⟨n, rfl, rfl⟩
  · intro ht hrt
    unfold get_water_level
    rw [hrt, ht, h6]

/-- Witness for C4's amended statement: `"010101"` and `"111101"` share the
trailing run 1 and resolve to the same name. -/
theorem resolve_total_below_full_witness :
    cfg0.WATER_LEVEL_NAMES.length = 6 ∧ sixBits ("010101") = true ∧
    trailingOnes ("010101") ≤ 5 ∧
    ((∃ n, get_water_level cfg0 ("010101") = PyStr.strVal n ∧
       cfg0.WATER_LEVEL_NAMES.reverse[trailingOnes ("010101")]? = some n) ∧
     (sixBits ("111101") = true →
       trailingOnes ("111101") = trailingOnes ("010101") →
       get_water_level cfg0 ("111101") = get_water_level cfg0 ("010101"))) :=
  ⟨rfl, by decide, by decide,
    resolve_total_below_full cfg0 ("010101") ("111101") rfl (by decide)
      (by decide)⟩

/-- C5 counterexample: the claim says the fault locator strips only trailing
zeros and reports the rightmost zero inside the stripped remainder, never a
stripped trailing zero, and always returns a name on invalid-but-resolvable
patterns.  The source instead calls `rindex` on the unstripped string and
`strip("0")` on both ends: `"110100"` (invalid, resolvable; stripped
remainder `"1101"`, whose rightmost zero sits at index 3 mapping to `S3`)
reports `S5`, the stripped trailing zero at index 5; and `"011100"`
(invalid, resolvable) gets no sensor name at all because the both-ends strip
leaves `"111"`. -/
theorem locate_fault_unstripped_rindex_cex :
    validate_bit_value ("110100") = false ∧
    get_water_level cfg0 ("110100") = PyStr.strVal ("PB0") ∧
    cfg0.SENSOR_NAMES[3]? = some ("S3") ∧
    get_failing_sensor_name cfg0 ("110100") = PyStr.strVal ("S5") ∧
    ¬ get_failing_sensor_name cfg0 ("110100") = PyStr.strVal ("S3") ∧
    validate_bit_value ("011100") = false ∧
    get_water_level cfg0 ("011100") = PyStr.strVal ("PB0") ∧
    get_failing_sensor_name cfg0 ("011100") = PyStr.noneVal := by
  decide

/-- C5 as amended: `locate_fault` strips zeros from both ends; when the
stripped string still contains a zero it returns `SENSOR_NAMES` at the last
index of a zero in the original, unstripped pattern (which for patterns with
trailing zeros is a stripped trailing zero), and when the stripped string
contains no zero it returns no sensor name, even for invalid-but-resolvable
patterns. -/
theorem locate_fault_last_zero_of_original (cfg : Config) (s : String)
    (hsn : cfg.SENSOR_NAMES.length = 6) (h6 : sixBits s = true)
    (hc : (strip0 s.data).contains '0' = true) :
    (∃ (i : Nat) (n : String), s.data[i]? = some '0' ∧
      (∀ j, i < j → s.data[j]? ≠ some '0') ∧
      cfg.SENSOR_NAMES[i]? = some n ∧
      get_failing_sensor_name cfg s = PyStr.strVal n) ∧
    (∀ u : String, (strip0 u.data).contains '0' = false →
      get_failing_sensor_name cfg u = PyStr.noneVal) := by
  constructor
  · have hmem : '0' ∈ s.data := by
      apply mem_of_mem_strip0 (l := s.data)
      exact contains_iff_mem.mp hc
    obtain ⟨i, hri, hlt, hgi, hlast⟩ := rindex0_spec s.data hmem
    have hlen := sixBits_data_length h6
    have hisn : i < cfg.SENSOR_NAMES.length := by
      rw [hsn]; rw [hlen] at hlt; exact hlt
    cases hn : cfg.SENSOR_NAMES[i]? with
    | none =>
      exact absurd (List.getElem?_eq_none_iff.mp hn) (Nat.not_le.mpr hisn)
    | some n =>
      refine ⟨i, n, hgi, hlast, hn, ?_⟩
      unfold get_failing_sensor_name
      rw [if_neg (by simpa using hc)]
      simp only [hri, hn]
  · intro u hu
    unfold get_failing_sensor_name
    rw [if_pos (by simpa using hu)]

/-- Witness for C5's amended statement at the concrete pattern `"110100"`. -/
theorem locate_fault_last_zero_of_original_witness :
    cfg0.SENSOR_NAMES.length = 6 ∧ sixBits ("110100") = true ∧
    (strip0 ("110100" : String).data).contains '0' = true ∧
    ((∃ (i : Nat) (n : String), ("110100" : String).data[i]? = some '0' ∧
       (∀ j, i < j → ("110100" : String).data[j]? ≠ some '0') ∧
       cfg0.SENSOR_NAMES[i]? = some n ∧
       get_failing_sensor_name cfg0 ("110100") = PyStr.strVal n) ∧
     (∀ u : String, (strip0 u.data).contains '0' = false →
       get_failing_sensor_name cfg0 u = PyStr.noneVal)) :=
  ⟨rfl, by decide, by decide,
    locate_fault_last_zero_of_original cfg0 ("110100") rfl (by decide)
      (by decide)⟩

theorem sixBits_iff (s : String) :
    sixBits s = true ↔
      (s.length = 6 ∧ ∀ c ∈ s.data, c = '0' ∨ c = '1') := by
  unfold sixBits isBit
  simp [List.all_eq_true]

theorem invalid_flag_false_iff : ∀ (l : List Char),
    (l.contains '1' &&
      ((l.dropWhile (fun c => ¬(c = '1'))).contains '0')) = false ↔
    ∀ (i j : Nat), i < j → l[i]? = some '1' → ¬ l[j]? = some '0' := by
  intro l
  induction l with
  | nil =>
    constructor
    · intro _ i j _ h1
      simp at h1
    · intro _
      rfl
  | cons a xs ih =>
    by_cases ha : a = '1'
    · subst ha
      have hdw : ((('1' : Char) :: xs).dropWhile (fun c => ¬(c = '1')))
          = '1' :: xs := by
        simp [List.dropWhile_cons]
      rw [hdw]
      have hc1 : ((('1' : Char) :: xs).contains '1') = true := by
        apply contains_iff_mem.mpr
        exact List.mem_cons_self _ _
      rw [hc1, Bool.true_and]
      constructor
      · intro h i j hij h1 h0
        have hmem : '0' ∈ ('1' : Char) :: xs :=
          List.mem_iff_getElem?.mpr ⟨j, h0⟩
        have := contains_iff_mem.mpr hmem
        rw [this] at h
        cases h
      · intro h
        by_cases hmem : '0' ∈ ('1' : Char) :: xs
        · exfalso
          obtain ⟨k, hk⟩ := List.mem_iff_getElem?.mp hmem
          cases k with
          | zero => simp at hk
          | succ k' =>
            exact h 0 (k' + 1) (Nat.succ_pos k') (by simp) hk
        · cases hcc : ((('1' : Char) :: xs).contains '0') with
          | false => rfl
          | true => exact absurd (contains_iff_mem.mp hcc) hmem
    · have hdw : ((a :: xs).dropWhile (fun c => ¬(c = '1')))
          = xs.dropWhile (fun c => ¬(c = '1')) := by
        simp [List.dropWhile_cons, ha]
      have hc1 : ((a :: xs).contains '1') = xs.contains '1' := by
        cases hx : xs.contains '1' with
        | true =>
          apply contains_iff_mem.mpr
          exact List.mem_cons_of_mem _ (contains_iff_mem.mp hx)
        | false =>
          cases hax : ((a :: xs).contains '1') with
          | false => rfl
          | true =>
            exfalso
            cases List.mem_cons.mp (contains_iff_mem.mp hax) with
            | inl hh => exact ha hh.symm
            | inr hh => rw [contains_iff_mem.mpr hh] at hx; cases hx
      rw [hdw, hc1]
      rw [ih]
      constructor
      · intro h i j hij h1 h0
        cases i with
        | zero =>
          have : a = '1' := by simpa using h1
          exact ha this
        | succ i' =>
          cases j with
          | zero => cases hij
          | succ j' =>
            exact h i' j' (Nat.lt_of_succ_lt_succ hij) (by simpa using h1)
              (by simpa using h0)
      · intro h i j hij h1 h0
        exact h (i + 1) (j + 1) (Nat.succ_lt_succ hij) (by simpa using h1)
          (by simpa using h0)

/-- C6 counterexample: the claim ends by asserting that every six-bit string
containing a `0` followed later by a `1` is invalid; but `"000111"` contains
a `0` at index 2 followed by a `1` at index 3 and is a perfectly valid
thermometer code (water fills from the least-significant end), so the
direction of that sentence is reversed. -/
theorem validate_zero_then_one_cex :
    validate_bit_value ("000111") = true ∧
    ("000111" : String).data[2]? = some '0' ∧
    ("000111" : String).data[3]? = some '1' := by
  decide

/-- C6 as amended: `is_valid` holds exactly on strings of six binary digits
with no `0` at or after the position of the first `1` — equivalently, every
six-bit binary string containing a `1` followed later by a `0` is invalid
(not, as claimed, a `0` followed later by a `1`: `"000111"` is valid). -/
theorem validate_iff_thermometer (s : String) :
    validate_bit_value s = true ↔
      (s.length = 6 ∧ (∀ c ∈ s.data, c = '0' ∨ c = '1') ∧
       ∀ (i j : Nat), i < j → s.data[i]? = some '1' → ¬ s.data[j]? = some '0') := by
  unfold validate_bit_value
  by_cases hs : sixBits s = true
  · simp only [hs, Bool.not_true, Bool.false_eq_true, if_false]
    obtain ⟨hlen, hbin⟩ := (sixBits_iff s).mp hs
    by_cases hflag : (s.data.contains '1' &&
        ((s.data.dropWhile (fun c => ¬(c = '1'))).contains '0')) = true
    · rw [if_pos hflag]
      constructor
      · intro hq; cases hq
      · rintro ⟨-, -, hq⟩
        rw [(invalid_flag_false_iff s.data).mpr hq] at hflag
        cases hflag
    · rw [if_neg hflag]
      have hff : (s.data.contains '1' &&
          ((s.data.dropWhile (fun c => ¬(c = '1'))).contains '0')) = false := by
        simpa using hflag
      exact iff_of_true rfl ⟨hlen, hbin, (invalid_flag_false_iff s.data).mp hff⟩
  · have hsf : sixBits s = false := by simpa using hs
    rw [hsf]
    simp only [Bool.not_false, if_true]
    constructor
    · intro hq; cases hq
    · rintro ⟨hlen, hbin, -⟩
      exact absurd ((sixBits_iff s).mpr ⟨hlen, hbin⟩) hs

/-- C1: the claim says a second identical `evaluate` call must emit no
per-level notification (the level being already in `triggered_water_areas`).
In the source the rise test on line 149 compares `user_input` with the
already-updated `active_value`, so it is always true, the triggered list is
cleared on every acceptance, and the second identical call sends the email
again: from state `active="011111"`, the first call notifies and records
`PB5`, and the repeated call notifies once more (`notify = true` both times). -/
theorem evaluate_repeat_notifies_again :
    evaluate cfg0 ⟨"011111", some ("PB5"), []⟩ ("011111")
      = some (.accepted (some ("PB5")) true false,
              ⟨"011111", some ("PB5"), ["PB5"]⟩)
    ∧ evaluate cfg0 ⟨"011111", some ("PB5"), ["PB5"]⟩ ("011111")
      = some (.accepted (some ("PB5")) true false,
              ⟨"011111", some ("PB5"), ["PB5"]⟩) := by
  constructor <;> rfl

/-- C2: the claim says `triggered_levels` is cleared iff the accepted reading
is numerically at least the previous active reading, and is left unchanged on
a fall.  In the source the comparison happens after `active_value` was already
overwritten, so the list is cleared on every acceptance: here `"001111"` is a
strict numeric fall from `"011111"`, yet the previously triggered `PB5` is
dropped and the post-state list is just `["PB4"]`. -/
theorem evaluate_fall_clears_triggered :
    bin2nat ("001111") < bin2nat ("011111")
    ∧ evaluate cfg0 ⟨"011111", some ("PB5"), ["PB5"]⟩ ("001111")
      = some (.accepted (some ("PB4")) true true,
              ⟨"001111", some ("PB4"), ["PB4"]⟩) := by
  refine ⟨by decide, rfl⟩

/-- C7: the claim says the aggregate report is emitted iff the accepted
reading is a rise or no-op and the new level is in
`NOTIFICATION_WHEN_RISEN_ABOVE`, never on a fall.  Because the rise test in
the source is evaluated after `active_value` was overwritten it always holds,
so a strict fall into a listed level (`"001111"`, level `PB4`, with
`NOTIFICATION_WHEN_RISEN_ABOVE = ["PB4"]`) also runs the aggregate report
(`aggregate_report = true`). -/
theorem evaluate_fall_emits_aggregate_report :
    bin2nat ("001111") < bin2nat ("011111")
    ∧ cfg0.NOTIFICATION_WHEN_RISEN_ABOVE = ["PB4"]
    ∧ evaluate cfg0 ⟨"011111", some ("PB5"), []⟩ ("001111")
      = some (.accepted (some ("PB4")) true true,
              ⟨"001111", some ("PB4"), ["PB4"]⟩) := by
  exact ⟨by decide, rfl, rfl⟩

/-- C10: after every accepted reading that completes (falls as well as rises),
`triggered_water_areas` holds exactly the newly resolved level: the list is
unconditionally cleared and the new level appended, so no previously triggered
level survives an acceptance. -/
theorem evaluate_accepted_triggered_singleton (cfg : Config) (s : EngineState)
    (p : String) (lv : Option String) (nf ag : Bool) (s' : EngineState)
    (h : evaluate cfg s p = some (.accepted lv nf ag, s')) :
    ∃ w, lv = some w ∧ s'.water_level = some w ∧
      s'.triggered_water_areas = [w] := by
  unfold evaluate at h
  by_cases hmt : may_transition s.active_value p = true
  · rw [if_pos hmt] at h
    cases hg : get_water_level cfg p with
    | exn => simp [hg] at h
    | noneVal => simp [hg] at h
    | strVal wl =>
      simp only [hg, ge_iff_le, le_refl, if_true, List.contains, List.elem_nil,
        Bool.false_eq_true, if_false, List.nil_append, Option.some.injEq,
        Prod.mk.injEq, Decision.accepted.injEq] at h
      obtain ⟨⟨hlv, -, -⟩, hs⟩ := h
      exact ⟨wl, hlv.symm, by rw [← hs], by rw [← hs]⟩
  · rw [if_neg hmt] at h
    by_cases hv : validate_bit_value p = true
    · rw [if_pos hv] at h; cases h
    · rw [if_neg hv] at h
      cases hg : get_water_level cfg p with
      | exn => simp [hg] at h
      | noneVal => simp [hg] at h
      | strVal wl =>
        simp only [hg] at h
        cases hf : get_failing_sensor_name cfg p with
        | exn => simp [hf] at h
        | noneVal => simp [hf] at h
        | strVal n => simp [hf] at h

/-- C8: `evaluate` is atomic on non-accepted outcomes.  For every input that
fails the acceptance gate (given the six-entry name tables from the config),
the loop iteration returns a decision — a rejection or a sensor fault — and
leaves the engine state exactly as it was; it never crashes there. -/
theorem evaluate_nonaccepted_preserves_state (cfg : Config) (s : EngineState)
    (p : String)
    (hwl : cfg.WATER_LEVEL_NAMES.length = 6)
    (hsn : cfg.SENSOR_NAMES.length = 6)
    (hna : may_transition s.active_value p = false) :
    ∃ d, evaluate cfg s p = some (d, s) ∧
      (d = Decision.rejected ∨ ∃ r, d = Decision.sensorFault r) := by
  unfold evaluate
  rw [if_neg (by simp [hna])]
  by_cases hv : validate_bit_value p = true
  · rw [if_pos hv]
    exact ⟨.rejected, rfl, Or.inl rfl⟩
  · rw [if_neg hv]
    have hvf : validate_bit_value p = false := by simpa using hv
    cases hg : get_water_level cfg p with
    | exn => exact absurd hg (get_water_level_not_exn hwl hvf)
    | noneVal => exact ⟨.rejected, rfl, Or.inl rfl⟩
    | strVal wl =>
      cases hf : get_failing_sensor_name cfg p with
      | exn =>
        exfalso
        unfold get_failing_sensor_name at hf
        by_cases hguard : (strip0 p.data).contains '0' = true
        · rw [if_neg (by simpa using hguard)] at hf
          have hmem : '0' ∈ p.data := by
            apply mem_of_mem_strip0 (l := p.data)
            exact contains_iff_mem.mp hguard
          obtain ⟨i, hri, hlt, -, -⟩ := rindex0_spec p.data hmem
          simp only [hri] at hf
          have hlen : p.data.length = 6 :=
            sixBits_data_length (get_water_level_strVal_sixBits hg)
          have hilt : i < cfg.SENSOR_NAMES.length := by
            rw [hsn]; rw [hlen] at hlt; exact hlt
          cases hgi : cfg.SENSOR_NAMES[i]? with
          | none =>
            exact absurd (List.getElem?_eq_none_iff.mp hgi) (Nat.not_le.mpr hilt)
          | some n => simp [hgi] at hf
        · rw [if_pos (by simpa using hguard)] at hf
          cases hf
      | noneVal =>
        exact ⟨.sensorFault .noneVal, rfl, Or.inr ⟨.noneVal, rfl⟩⟩
      | strVal n =>
        exact ⟨.sensorFault (.strVal n), rfl, Or.inr ⟨.strVal n, rfl⟩⟩

/-- Witness for C8: the multi-step jump from `"000111"` to `"111000"` is not
accepted, and the iteration reports a decision while leaving the state as it
was. -/
theorem evaluate_nonaccepted_preserves_state_witness :
    cfg0.WATER_LEVEL_NAMES.length = 6 ∧ cfg0.SENSOR_NAMES.length = 6 ∧
    may_transition
      (⟨"000111", some ("PB3"), []⟩ : EngineState).active_value ("111000") = false ∧
    ∃ d, evaluate cfg0 ⟨"000111", some ("PB3"), []⟩ ("111000")
        = some (d, ⟨"000111", some ("PB3"), []⟩) ∧
      (d = Decision.rejected ∨ ∃ r, d = Decision.sensorFault r) :=
  ⟨rfl, rfl, by decide,
    evaluate_nonaccepted_preserves_state cfg0 ⟨"000111", some ("PB3"), []⟩
      ("111000") rfl rfl (by decide)⟩

/-- Witness for C10: a concrete accepted fall from `"000111"` to `"001111"`
leaves exactly the new level `PB4` in the triggered list. -/
theorem evaluate_accepted_triggered_singleton_witness :
    ∃ w, (some ("PB4") : Option String) = some w ∧
      (⟨"001111", some ("PB4"), ["PB4"]⟩ : EngineState).water_level = some w ∧
      (⟨"001111", some ("PB4"), ["PB4"]⟩ : EngineState).triggered_water_areas = [w] :=
  evaluate_accepted_triggered_singleton cfg0 ⟨"000111", some ("PB3"), []⟩
    ("001111") (some ("PB4")) true true ⟨"001111", some ("PB4"), ["PB4"]⟩ rfl

/-- C9: provided the startup default reading is a valid six-bit thermometer
code, every engine state reachable through `evaluate` calls and `reset`
commands keeps a valid `active_value`, and its stored `water_level` is
exactly the level `get_water_level` resolves for that reading: the active
reading is only overwritten after the validity and single-step checks pass,
the level is recomputed at each overwrite, and `reset` restores the valid
default. -/
theorem reachable_active_valid_and_resolved (cfg : Config) (default : String)
    (hd : validate_bit_value default = true)
    (s : EngineState) (h : Reachable cfg default s) :
    validate_bit_value s.active_value = true ∧
    ∃ n, s.water_level = some n ∧
      get_water_level cfg s.active_value = PyStr.strVal n := by
  induction h with
  | startup s hs =>
    unfold appInit at hs
    cases hg : get_water_level cfg default with
    | exn => rw [hg] at hs; cases hs
    | noneVal =>
      exfalso
      have hsb := (get_water_level_noneVal_iff cfg default).mp hg
      rw [validate_sixBits hd] at hsb
      cases hsb
    | strVal n =>
      rw [hg] at hs
      cases hs
      exact ⟨hd, n, rfl, hg⟩
  | eval s p d s' hr hstep ih =>
    unfold evaluate at hstep
    by_cases hmt : may_transition s.active_value p = true
    · rw [if_pos hmt] at hstep
      cases hg : get_water_level cfg p with
      | exn => simp [hg] at hstep
      | noneVal => simp [hg] at hstep
      | strVal wl =>
        simp only [hg] at hstep
        have hv : validate_bit_value p = true := by
          unfold may_transition at hmt
          exact ((Bool.and_eq_true _ _).mp hmt).1
        injection hstep with hpair
        injection hpair with hd2 hs2
        rw [← hs2]
        exact ⟨hv, wl, rfl, hg⟩
    · rw [if_neg hmt] at hstep
      by_cases hval : validate_bit_value p = true
      · rw [if_pos hval] at hstep
        injection hstep with hpair
        injection hpair with hd2 hs2
        rw [← hs2]
        exact ih
      · rw [if_neg hval] at hstep
        cases hg : get_water_level cfg p with
        | exn => simp [hg] at hstep
        | noneVal =>
          simp only [hg] at hstep
          injection hstep with hpair
          injection hpair with hd2 hs2
          rw [← hs2]
          exact ih
        | strVal wl =>
          simp only [hg] at hstep
          cases hf : get_failing_sensor_name cfg p with
          | exn => simp [hf] at hstep
          | noneVal =>
            simp only [hf] at hstep
            injection hstep with hpair
            injection hpair with hd2 hs2
            rw [← hs2]
            exact ih
          | strVal n =>
            simp only [hf] at hstep
            injection hstep with hpair
            injection hpair with hd2 hs2
            rw [← hs2]
            exact ih
  | reset s s' hr hres =>
    unfold appReset at hres
    cases hg : get_water_level cfg default with
    | exn => rw [hg] at hres; cases hres
    | noneVal =>
      exfalso
      have hsb := (get_water_level_noneVal_iff cfg default).mp hg
      rw [validate_sixBits hd] at hsb
      cases hsb
    | strVal n =>
      rw [hg] at hres
      cases hres
      exact ⟨hd, n, rfl, hg⟩

/-- Witness for C9: the startup state for the valid default `"000111"` is
reachable and satisfies the invariant. -/
theorem reachable_active_valid_and_resolved_witness :
    validate_bit_value ("000111") = true ∧
    (validate_bit_value
        ((⟨"000111", some ("PB3"), []⟩ : EngineState)).active_value = true ∧
     ∃ n, (⟨"000111", some ("PB3"), []⟩ : EngineState).water_level = some n ∧
       get_water_level cfg0
         ((⟨"000111", some ("PB3"), []⟩ : EngineState)).active_value
         = PyStr.strVal n) :=
  ⟨by decide,
    reachable_active_valid_and_resolved cfg0 ("000111") (by decide)
      ⟨"000111", some ("PB3"), []⟩
      (Reachable.startup ⟨"000111", some ("PB3"), []⟩ rfl)⟩
